import Mathlib

/-!
# url-shortener: handler chain, map builder and start-up

A shallow embedding of `urlshort/handler.go` and `main/main.go`.

* A Go `map[string]string` is an association list (`GoMap`); the index
  expression `m[k]` yields the zero value `""` for an absent key.
* An `http.ResponseWriter` is the record of what has been sent so far
  (status line, redirect target, body); an `http.Handler` is a function
  from the writer and the request to the writer afterwards.
* The calls into `net/http` (`Redirect`, `ServeMux`, `NotFound`) are library
  code outside the repository; they are modelled after the documented
  behaviour of the library, each with a note on what is left out.
* The YAML and JSON decoders are parameters (black boxes).
-/

namespace UrlShort

/-! ## Data model -/

/-- A Go `error` value (its `Error()` text). -/
abbrev GoError := String

/-- A Go `[]byte`. -/
abbrev Bytes := List UInt8

/-- The conversion `[]byte(s)` of a Go string. -/
def bytesOf (s : String) : Bytes := s.toUTF8.toList

/-- A Go `map[string]string`, as an association list read front to back. -/
structure GoMap where
  entries : List (String × String)
deriving DecidableEq, Repr

namespace GoMap

/-- The result of `make(map[string]string)`. -/
def empty : GoMap := ⟨[]⟩

/-- The two-result lookup `v, ok := m[k]`: `some v` when `k` is a key. -/
def lookup (m : GoMap) (k : String) : Option String :=
  List.lookup k m.entries

/-- The index expression `m[k]`: the value of `k`, or the zero value `""`
when `k` is not a key. -/
def index (m : GoMap) (k : String) : String :=
  (m.lookup k).getD ""

/-- The assignment `m[k] = v`: a former value of `k`, if any, is replaced. -/
def assign (m : GoMap) (k v : String) : GoMap :=
  ⟨(k, v) :: m.entries.filter (fun e => e.1 != k)⟩

end GoMap

/-- The fields of `*url.URL` the program reads. -/
structure URL where
  Path : String
  RawQuery : String
deriving DecidableEq, Repr

/-- The fields of `*http.Request` the program and its router read. -/
structure Request where
  Method : String
  URL : URL
  RequestURI : String
deriving DecidableEq, Repr

/-- An `http.ResponseWriter`, as the response sent so far: `status` is `none`
until the status line has been written, `redirect` is the url that
`http.Redirect` was called with (from which the library writes the `Location`
header), `body` is the text written. -/
structure ResponseWriter where
  status : Option Nat
  redirect : Option String
  body : String
deriving DecidableEq, Repr

/-- The writer the server hands to the outermost handler of a request. -/
def ResponseWriter.fresh : ResponseWriter := ⟨none, none, ""⟩

/-- `w.WriteHeader(code)`: the first call fixes the status line, a later call
is ignored by the library. -/
def ResponseWriter.WriteHeader (w : ResponseWriter) (code : Nat) : ResponseWriter :=
  match w.status with
  | none => { w with status := some code }
  | some _ => w

/-- `w.Write(s)`: the first write sends status 200 if none was sent. -/
def ResponseWriter.Write (w : ResponseWriter) (s : String) : ResponseWriter :=
  let w1 := w.WriteHeader 200
  { w1 with body := w1.body ++ s }

/-- An `http.Handler`: `ServeHTTP(w, r)` gives the writer afterwards. -/
structure Handler where
  ServeHTTP : ResponseWriter → Request → ResponseWriter

/-- The constant `http.StatusSeeOther`. -/
def StatusSeeOther : Nat := 303

/-- The constant `http.StatusMovedPermanently`. -/
def StatusMovedPermanently : Nat := 301

/-- The constant `http.StatusNotFound`. -/
def StatusNotFound : Nat := 404

/-- The constant `http.StatusBadRequest`. -/
def StatusBadRequest : Nat := 400

/-- The library call `http.Redirect(w, r, url, code)`: it records `url` as the
redirect target and writes the status line. Once the status line is out the
header can no longer change. Left out: the library derives the `Location`
header from `url` (verbatim for an absolute ASCII url, resolved against the
request path for a relative one) and adds a short HTML body on GET. -/
def Redirect (w : ResponseWriter) (_r : Request) (url : String) (code : Nat) :
    ResponseWriter :=
  match w.status with
  | none => { w with redirect := some url, status := some code }
  | some _ => w

/-! ## `urlshort/handler.go` -/

/-- `MapHandler`: look the request path up in the map; on the empty string call
the fallback, otherwise redirect with 303. -/
def MapHandler (pathsToUrls : GoMap) (fallback : Handler) : Handler :=
  ⟨fun w r =>
    let redirectURL := pathsToUrls.index r.URL.Path
    if redirectURL == "" then
      fallback.ServeHTTP w r
    else
      Redirect w r redirectURL StatusSeeOther⟩

/-- The struct `pathsToUrls` the decoders fill. -/
structure pathsToUrls where
  Path : String
  Url : String
deriving DecidableEq, Repr

/-- `buildMap`: insert every entry in order into a new map. -/
def buildMap (entries : List pathsToUrls) : GoMap :=
  entries.foldl (fun m v => m.assign v.Path v.Url) GoMap.empty

/-- A decoder (`yaml.Unmarshal`, `json.Unmarshal`) as a black box: from the
payload and the slice to fill, the slice afterwards and the error, if any. -/
abbrev Unmarshal := Bytes → List pathsToUrls → List pathsToUrls × Option GoError

/-- `parseYAML`: decode into an empty slice; on an error drop the slice. -/
def parseYAML (yamlUnmarshal : Unmarshal) (yml : Bytes) : Except GoError (List pathsToUrls) :=
  let p : List pathsToUrls := []
  match yamlUnmarshal yml p with
  | (_, some err) => .error err
  | (p, none) => .ok p

/-- `parseJSON`: decode into an empty slice; on an error drop the slice. -/
def parseJSON (jsonUnmarshal : Unmarshal) (jsn : Bytes) : Except GoError (List pathsToUrls) :=
  let p : List pathsToUrls := []
  match jsonUnmarshal jsn p with
  | (_, some err) => .error err
  | (p, none) => .ok p

/-- `YAMLHandler`: parse, build the map, wrap it with `MapHandler`; a parse
error is returned as is, with no handler. -/
def YAMLHandler (yamlUnmarshal : Unmarshal) (yml : Bytes) (fallback : Handler) :
    Except GoError Handler :=
  match parseYAML yamlUnmarshal yml with
  | .error err => .error err
  | .ok parsedYAML =>
    let mappedYAML := buildMap parsedYAML
    .ok (MapHandler mappedYAML fallback)

/-- `JSONHandler`: parse, build the map, wrap it with `MapHandler`; a parse
error is returned as is, with no handler. -/
def JSONHandler (jsonUnmarshal : Unmarshal) (jsn : Bytes) (fallback : Handler) :
    Except GoError Handler :=
  match parseJSON jsonUnmarshal jsn with
  | .error err => .error err
  | .ok parsedJSON =>
    let mappedJSON := buildMap parsedJSON
    .ok (MapHandler mappedJSON fallback)

/-! ## `net/http`: the request router -/

/-- Cut a path at every slash. -/
def splitSlash : List Char → List (List Char)
  | [] => [[]]
  | c :: cs =>
    if c = '/' then [] :: splitSlash cs
    else
      match splitSlash cs with
      | [] => [[c]]
      | s :: ss => (c :: s) :: ss

/-- The elements of a cleaned rooted path, last one first: empty elements
and `.` are dropped, `..` removes the element before it (nothing at the
root). -/
def cleanElems : List (List Char) → List (List Char) → List (List Char)
  | acc, [] => acc
  | acc, seg :: rest =>
    if seg = [] ∨ seg = ['.'] then cleanElems acc rest
    else if seg = ['.', '.'] then cleanElems acc.tail rest
    else cleanElems (seg :: acc) rest

/-- The library function `path.Clean` on a rooted path. -/
def pathClean (p : List Char) : List Char :=
  '/' :: List.intercalate ['/'] (cleanElems [] (splitSlash p)).reverse

/-- The library function `cleanPath` of `net/http`: the canonical form of a
request path, rooted, without `.`, `..` or doubled slashes, keeping a
trailing slash. -/
def cleanPath (p : String) : String :=
  if p.data = [] then "/"
  else
    let q := if p.data.head? = some '/' then p.data else '/' :: p.data
    let np := pathClean q
    if q.getLast? = some '/' ∧ np ≠ ['/'] then String.mk (np ++ ['/'])
    else String.mk np

/-- An `http.ServeMux`: the registered patterns with their handlers.
Host-specific patterns are not modelled. -/
structure ServeMux where
  m : List (String × Handler)

/-- The library call `http.NewServeMux()`. -/
def NewServeMux : ServeMux := ⟨[]⟩

/-- The library call `mux.HandleFunc(pattern, handler)`. -/
def ServeMux.HandleFunc (mux : ServeMux) (pattern : String)
    (handler : ResponseWriter → Request → ResponseWriter) : ServeMux :=
  ⟨mux.m ++ [(pattern, ⟨handler⟩)]⟩

/-- The library handler `http.NotFoundHandler()`: status 404 and the text
`404 page not found`. -/
def NotFoundHandler : Handler :=
  ⟨fun w _ => (w.WriteHeader StatusNotFound).Write "404 page not found\n"⟩

/-- The library handler `http.RedirectHandler(url, code)`. -/
def RedirectHandler (url : String) (code : Nat) : Handler :=
  ⟨fun w r => Redirect w r url code⟩

/-- Whether `pattern` is registered. -/
def ServeMux.registered (mux : ServeMux) (pattern : String) : Bool :=
  mux.m.any (fun e => e.1 == pattern)

/-- The longer of two candidate entries, the earlier one on a tie. -/
def longer (best : Option (String × Handler)) (e : String × Handler) :
    Option (String × Handler) :=
  match best with
  | none => some e
  | some b => if b.1.length < e.1.length then some e else some b

/-- The library method `mux.match`: a pattern equal to the path wins;
otherwise the longest registered pattern that ends in a slash and starts
the path (a pattern ending in a slash names a subtree, so the pattern `/`
matches every rooted path). -/
def ServeMux.matchPath (mux : ServeMux) (path : String) : Option Handler :=
  match mux.m.find? (fun e => e.1 == path) with
  | some e => some e.2
  | none =>
    ((mux.m.filter (fun e =>
        e.1.data.getLast? = some '/' ∧ e.1.data.isPrefixOf path.data)).foldl
      longer none).map (fun e => e.2)

/-- The library method `mux.handler`: the matching handler, or the
not-found handler when no pattern matches. -/
def ServeMux.handler (mux : ServeMux) (path : String) : Handler :=
  match mux.matchPath path with
  | some h => h
  | none => NotFoundHandler

/-- The library test `shouldRedirect`: `path` is not registered and
`path/` is. -/
def ServeMux.shouldRedirect (mux : ServeMux) (path : String) : Bool :=
  !mux.registered path && path.data != [] && mux.registered (path ++ "/")
    && path.data.getLast? != some '/'

/-- The query part of a redirect target. -/
def queryPart (u : URL) : String :=
  if u.RawQuery == "" then "" else "?" ++ u.RawQuery

/-- The library method `mux.Handler(r)`: a CONNECT request is matched as it
is; any other request with a path that is not canonical is answered with a
permanent redirect to the canonical path. Left out: the escaping of the
redirect target. -/
def ServeMux.findHandler (mux : ServeMux) (r : Request) : Handler :=
  if r.Method == "CONNECT" then
    if mux.shouldRedirect r.URL.Path then
      RedirectHandler (r.URL.Path ++ "/" ++ queryPart r.URL) StatusMovedPermanently
    else mux.handler r.URL.Path
  else
    let path := cleanPath r.URL.Path
    if mux.shouldRedirect path then
      RedirectHandler (path ++ "/" ++ queryPart r.URL) StatusMovedPermanently
    else if path != r.URL.Path then
      RedirectHandler (path ++ queryPart r.URL) StatusMovedPermanently
    else mux.handler r.URL.Path

/-- The library method `mux.ServeHTTP(w, r)`: the request-URI `*` is a bad
request, any other request goes to the handler chosen by `mux.Handler(r)`. -/
def ServeMux.ServeHTTP (mux : ServeMux) (w : ResponseWriter) (r : Request) :
    ResponseWriter :=
  if r.RequestURI == "*" then w.WriteHeader StatusBadRequest
  else (mux.findHandler r).ServeHTTP w r

/-- A `*http.ServeMux` used as an `http.Handler`. -/
def ServeMux.toHandler (mux : ServeMux) : Handler := ⟨mux.ServeHTTP⟩

/-! ## `main/main.go` -/

/-- `hello`: `fmt.Fprintln(w, "Hello, world!")`. -/
def hello (w : ResponseWriter) (_r : Request) : ResponseWriter :=
  w.Write "Hello, world!\n"

/-- `defaultMux`: a new router with `hello` registered for the pattern `/`. -/
def defaultMux : ServeMux :=
  let mux := NewServeMux
  mux.HandleFunc "/" hello

/-- What `main` reads from outside: the two flags, the file system and the
two decoders. -/
structure Env where
  yamlPtr : String
  jsonPtr : String
  ReadFile : String → Bytes × Option GoError
  yamlUnmarshal : Unmarshal
  jsonUnmarshal : Unmarshal

/-- How a run of `main` ends: in a panic, or in `http.ListenAndServe` being
called with the address and the handler. `stdout` holds the lines printed. -/
inductive Outcome where
  | panicked (stdout : List String) (err : GoError)
  | listening (stdout : List String) (addr : String) (handler : Handler)

/-- `readFile`: the bytes of the file, or a printed line and a panic. -/
def readFile (env : Env) (s : String) : Except (List String × GoError) Bytes :=
  match env.ReadFile s with
  | (_, some err) => .error (["error reading file " ++ s ++ " -- " ++ err], err)
  | (bSlice, none) => .ok bSlice

/-- The in-memory map of `main`. -/
def mainPathsToUrls : GoMap :=
  ⟨[("/urlshort-godoc", "https://godoc.org/github.com/gophercises/urlshort"),
    ("/yaml-godoc", "https://godoc.org/gopkg.in/yaml.v2")]⟩

/-- The built-in YAML payload of `main`. -/
def yamlString : String :=
  "\n    - path: /urlshort\n      url: https://github.com/gophercises/urlshort\n    - path: /urlshort-final\n      url: https://github.com/gophercises/urlshort/tree/solution\n    "

/-- The built-in JSON payload of `main`. -/
def jsonString : String :=
  "[\x7b\n\t\t\"path\": \"/watch\",\n\t\t\"url\": \"https://www.youtube.com\"\n\t\x7d, \x7b\n\t\t\"path\": \"/play\",\n\t\t\"url\": \"https://www.playstation.com\"\n\t\x7d]"

/-- `main`: build the chain JSON over YAML over the in-memory map over the
default router, then serve; a file or parse error ends the run in a panic. -/
def main (env : Env) : Outcome :=
  let mux := defaultMux
  let mapHandler := MapHandler mainPathsToUrls mux.toHandler
  let yaml := bytesOf yamlString
  match (if env.yamlPtr != "" then readFile env env.yamlPtr else .ok yaml) with
  | .error (out, err) => .panicked out err
  | .ok yaml =>
    match YAMLHandler env.yamlUnmarshal yaml mapHandler with
    | .error err => .panicked [] err
    | .ok yamlHandler =>
      let json := bytesOf jsonString
      match (if env.jsonPtr != "" then readFile env env.jsonPtr else .ok json) with
      | .error (out, err) => .panicked out err
      | .ok json =>
        match JSONHandler env.jsonUnmarshal json yamlHandler with
        | .error err => .panicked [] err
        | .ok jsonHandler =>
          .listening ["Starting the server on :8080"] ":8080" jsonHandler

/-! ## Chains of layers -/

/-- The nesting `MapHandler(t1, MapHandler(t2, ... MapHandler(tn, d)))`. -/
def chain (tables : List GoMap) (d : Handler) : Handler :=
  tables.foldr MapHandler d

/-- The number of map lookups one call of a `MapHandler` closure makes, given
the number its fallback makes: one index expression, then the fallback's
lookups when the handler delegates. -/
def MapHandlerLookups (pathsToUrls : GoMap) (fallback : Request → Nat) : Request → Nat :=
  fun r =>
    let redirectURL := pathsToUrls.index r.URL.Path
    if redirectURL == "" then 1 + fallback r else 1

/-- The number of map lookups the nested chain makes on a request; the
terminal handler makes none. -/
def chainLookups (tables : List GoMap) : Request → Nat :=
  tables.foldr MapHandlerLookups (fun _ => 0)

/-- The single first-match dispatcher of the specification: walk the layers
in order, redirect with 303 to the first non-empty lookup result, and hand
the request to the terminal handler when no layer has one. -/
def dispatch (layers : List GoMap) (d : Handler) : Handler :=
  ⟨fun w r =>
    match layers.find? (fun t => t.index r.URL.Path != "") with
    | some t => Redirect w r (t.index r.URL.Path) StatusSeeOther
    | none => d.ServeHTTP w r⟩

/-! ## Definitions used to state the properties -/

/-- A GET request for the path `p`, without a query. -/
def getRequest (p : String) : Request := ⟨"GET", ⟨p, ""⟩, p⟩

/-- The url of the last entry of the sequence whose path is `p`, if there is
such an entry. -/
def lastUrl (entries : List pathsToUrls) (p : String) : Option String :=
  ((entries.filter (fun e => e.Path = p)).getLast?).map (fun e => e.Url)

/-- The YAML payload `main` hands to `YAMLHandler`: the file named by the
flag when the flag is set, the built-in text otherwise. -/
def configuredYAML (env : Env) : Except (List String × GoError) Bytes :=
  if env.yamlPtr != "" then readFile env env.yamlPtr else .ok (bytesOf yamlString)

/-- The JSON payload `main` hands to `JSONHandler`: the file named by the
flag when the flag is set, the built-in text otherwise. -/
def configuredJSON (env : Env) : Except (List String × GoError) Bytes :=
  if env.jsonPtr != "" then readFile env env.jsonPtr else .ok (bytesOf jsonString)

/-- A fallback that leaves the response untouched. -/
def idleHandler : Handler := ⟨fun w _ => w⟩

/-- An environment with no flags set whose JSON decoder reports an
unterminated array. -/
def brokenJSONEnv : Env :=
  { yamlPtr := ""
    jsonPtr := ""
    ReadFile := fun _ => ([], some "no such file")
    yamlUnmarshal := fun _ p => (p, none)
    jsonUnmarshal := fun _ p => (p, some "unexpected end of JSON input") }

/-! ## Lemmas on maps and on `MapHandler` -/

theorem index_of_lookup_some {t : GoMap} {k u : String} (h : t.lookup k = some u) :
    t.index k = u := by
  simp [GoMap.index, h]

theorem index_of_lookup_none {t : GoMap} {k : String} (h : t.lookup k = none) :
    t.index k = "" := by
  simp [GoMap.index, h]

theorem index_eq_empty_iff (t : GoMap) (k : String) :
    t.index k = "" ↔ t.lookup k = none ∨ t.lookup k = some "" := by
  unfold GoMap.index
  cases h : t.lookup k with
  | none => simp
  | some u => simp

theorem MapHandler_miss (t : GoMap) (fallback : Handler) (w : ResponseWriter) (r : Request)
    (h : t.index r.URL.Path = "") :
    (MapHandler t fallback).ServeHTTP w r = fallback.ServeHTTP w r := by
  simp [MapHandler, h]

theorem MapHandler_hit (t : GoMap) (fallback : Handler) (w : ResponseWriter) (r : Request)
    (h : t.index r.URL.Path ≠ "") :
    (MapHandler t fallback).ServeHTTP w r
      = Redirect w r (t.index r.URL.Path) StatusSeeOther := by
  simp [MapHandler, h]

theorem Redirect_fresh (w : ResponseWriter) (r : Request) (url : String) (code : Nat)
    (hw : w.status = none) :
    Redirect w r url code = ⟨some code, some url, w.body⟩ := by
  cases w with
  | mk s l b =>
    simp only at hw
    subst hw
    rfl

theorem MapHandler_key_nonempty (t : GoMap) (fallback : Handler) (w : ResponseWriter)
    (r : Request) (U : String) (hkey : t.lookup r.URL.Path = some U) (hne : U ≠ "") :
    (MapHandler t fallback).ServeHTTP w r = Redirect w r U StatusSeeOther := by
  have hi := index_of_lookup_some hkey
  have := MapHandler_hit t fallback w r (by rw [hi]; exact hne)
  rw [this, hi]

theorem lookup_single_slash (p u : String) :
    (⟨[(p, u)]⟩ : GoMap).lookup (p ++ "/") = none := by
  have hne : ¬ (p ++ "/" = p) := by
    intro h
    have hl := congrArg String.length h
    have h1 : ("/" : String).length = 1 := rfl
    rw [String.length_append, h1] at hl
    omega
  have hb : (p ++ "/" == p) = false := by simpa using hne
  simp [GoMap.lookup, List.lookup, hb]

/-! ## The redirect handler -/

/-- C1, as stated, fails: the path `/a` is a key of the table with value `""`,
yet the handler does not redirect; it hands the request to the fallback (here
the default router), whose answer is status 200. -/
theorem MapHandler_empty_url_key_not_redirected :
    (⟨[("/a", "")]⟩ : GoMap).lookup (getRequest "/a").URL.Path = some ""
    ∧ (MapHandler ⟨[("/a", "")]⟩ defaultMux.toHandler).ServeHTTP .fresh (getRequest "/a")
        = defaultMux.toHandler.ServeHTTP .fresh (getRequest "/a")
    ∧ ((MapHandler ⟨[("/a", "")]⟩ defaultMux.toHandler).ServeHTTP .fresh
          (getRequest "/a")).status = some 200
    ∧ ((MapHandler ⟨[("/a", "")]⟩ defaultMux.toHandler).ServeHTTP .fresh
          (getRequest "/a")).redirect = none := by
  decide

/-- C1 (amended): when the request path is a key of the table with a
non-empty value `U`, the handler answers by `http.Redirect` with url `U` and
status 303, whatever the fallback is (the fallback is not invoked); on a
writer that has sent nothing the status is 303 and the redirect target is
`U`. -/
theorem MapHandler_hit_redirects (t : GoMap) (fallback : Handler) (w : ResponseWriter)
    (r : Request) (U : String)
    (hkey : t.lookup r.URL.Path = some U) (hne : U ≠ "") :
    (MapHandler t fallback).ServeHTTP w r = Redirect w r U StatusSeeOther
    ∧ (∀ other : Handler,
        (MapHandler t other).ServeHTTP w r = (MapHandler t fallback).ServeHTTP w r)
    ∧ (w.status = none →
        ((MapHandler t fallback).ServeHTTP w r).status = some 303
        ∧ ((MapHandler t fallback).ServeHTTP w r).redirect = some U
        ∧ ((MapHandler t fallback).ServeHTTP w r).body = w.body) := by
  have h1 := MapHandler_key_nonempty t fallback w r U hkey hne
  refine ⟨h1, fun other => ?_, fun hw => ?_⟩
  · rw [h1, MapHandler_key_nonempty t other w r U hkey hne]
  · rw [h1, Redirect_fresh w r U _ hw]
    exact ⟨rfl, rfl, rfl⟩

/-- C1 (amended), at the table with `/urlshort-godoc` and a request for that
path. -/
theorem MapHandler_hit_redirects_witness :
    (MapHandler mainPathsToUrls NotFoundHandler).ServeHTTP .fresh (getRequest "/urlshort-godoc")
      = Redirect .fresh (getRequest "/urlshort-godoc")
          "https://godoc.org/github.com/gophercises/urlshort" StatusSeeOther :=
  (MapHandler_hit_redirects mainPathsToUrls NotFoundHandler .fresh
    (getRequest "/urlshort-godoc") "https://godoc.org/github.com/gophercises/urlshort"
    (by decide) (by decide)).1

/-- C2: when the request path is not a key of the table, the answer of the
handler is the answer of the fallback on the same writer and the same
request; as this holds for every fallback, the fallback runs once. Keys are
compared as whole strings: a table whose only key is `p` misses `p/`. -/
theorem MapHandler_miss_delegates (t : GoMap) (fallback : Handler) (w : ResponseWriter)
    (r : Request) (hmiss : t.lookup r.URL.Path = none) :
    (MapHandler t fallback).ServeHTTP w r = fallback.ServeHTTP w r
    ∧ (∀ (p u : String) (q : Request), q.URL.Path = p ++ "/" →
        (MapHandler ⟨[(p, u)]⟩ fallback).ServeHTTP w q = fallback.ServeHTTP w q) := by
  refine ⟨MapHandler_miss t fallback w r (index_of_lookup_none hmiss), ?_⟩
  intro p u q hq
  apply MapHandler_miss
  rw [hq]
  exact index_of_lookup_none (lookup_single_slash p u)

/-- C2, at a table with the key `/a` and a request for `/a/`. -/
theorem MapHandler_miss_delegates_witness :
    (⟨[("/a", "https://example.com")]⟩ : GoMap).lookup (getRequest "/a/").URL.Path = none
    ∧ (MapHandler ⟨[("/a", "https://example.com")]⟩ NotFoundHandler).ServeHTTP .fresh
          (getRequest "/a/")
        = NotFoundHandler.ServeHTTP .fresh (getRequest "/a/") :=
  ⟨by decide,
   (MapHandler_miss_delegates ⟨[("/a", "https://example.com")]⟩ NotFoundHandler .fresh
      (getRequest "/a/") (by decide)).1⟩

/-- C9: the handler delegates to the fallback (its answer is the answer of
the fallback, for every fallback and writer) exactly when the index
expression yields the empty string, that is when the path is absent or is a
key with the empty url; a key with the empty url is never redirected. -/
theorem MapHandler_delegates_iff_index_empty (t : GoMap) (r : Request) :
    ((∀ (fallback : Handler) (w : ResponseWriter),
        (MapHandler t fallback).ServeHTTP w r = fallback.ServeHTTP w r)
      ↔ t.index r.URL.Path = "")
    ∧ (t.index r.URL.Path = ""
      ↔ (t.lookup r.URL.Path = none ∨ t.lookup r.URL.Path = some ""))
    ∧ (t.lookup r.URL.Path = some "" →
        ∀ (fallback : Handler) (w : ResponseWriter),
          (MapHandler t fallback).ServeHTTP w r = fallback.ServeHTTP w r) := by
  refine ⟨⟨fun h => ?_, fun h fallback w => MapHandler_miss t fallback w r h⟩,
    index_eq_empty_iff t r.URL.Path, fun h fallback w => ?_⟩
  · by_contra hne
    have h1 := h idleHandler ResponseWriter.fresh
    rw [MapHandler_hit t idleHandler ResponseWriter.fresh r hne] at h1
    have h2 := congrArg ResponseWriter.status h1
    simp [Redirect, ResponseWriter.fresh, idleHandler] at h2
  · exact MapHandler_miss t fallback w r (index_of_lookup_some h)

/-- C9, at a table mapping `/a` to the empty url. -/
theorem MapHandler_delegates_iff_index_empty_witness :
    (MapHandler ⟨[("/a", "")]⟩ NotFoundHandler).ServeHTTP .fresh (getRequest "/a")
      = NotFoundHandler.ServeHTTP .fresh (getRequest "/a") :=
  (MapHandler_delegates_iff_index_empty ⟨[("/a", "")]⟩ (getRequest "/a")).2.2 (by decide)
    NotFoundHandler .fresh

/-! ## Chains of layers -/

theorem chain_nil (d : Handler) : chain [] d = d := rfl

theorem chain_cons (t : GoMap) (ts : List GoMap) (d : Handler) :
    chain (t :: ts) d = MapHandler t (chain ts d) := rfl

theorem Handler_ext (h k : Handler) (hk : ∀ w r, h.ServeHTTP w r = k.ServeHTTP w r) :
    h = k := by
  cases h with
  | mk f =>
    cases k with
    | mk g =>
      congr
      funext w r
      exact hk w r

theorem chain_all_miss (ts : List GoMap) (d : Handler) (w : ResponseWriter) (r : Request)
    (h : ∀ t ∈ ts, t.index r.URL.Path = "") :
    (chain ts d).ServeHTTP w r = d.ServeHTTP w r := by
  induction ts with
  | nil => rfl
  | cons t ts ih =>
    rw [chain_cons, MapHandler_miss t _ w r (h t (List.mem_cons_self _ _))]
    exact ih (fun t ht => h t (List.mem_cons_of_mem _ ht))

theorem chain_eq_dispatch (ts : List GoMap) (d : Handler) (w : ResponseWriter) (r : Request) :
    (chain ts d).ServeHTTP w r = (dispatch ts d).ServeHTTP w r := by
  induction ts with
  | nil => rfl
  | cons t ts ih =>
    rw [chain_cons]
    by_cases h : t.index r.URL.Path = ""
    · rw [MapHandler_miss t _ w r h, ih]
      simp [dispatch, List.find?, h]
    · rw [MapHandler_hit t _ w r h]
      have hb : (t.index r.URL.Path != "") = true := by simpa using h
      simp [dispatch, List.find?, hb]

theorem chainLookups_le (ts : List GoMap) (r : Request) : chainLookups ts r ≤ ts.length := by
  induction ts with
  | nil => exact Nat.le_refl 0
  | cons t ts ih =>
    show MapHandlerLookups t (chainLookups ts) r ≤ ts.length + 1
    unfold MapHandlerLookups
    simp only []
    split <;> omega

theorem main_listening_chain (env : Env) (out : List String) (addr : String) (h : Handler)
    (hm : main env = .listening out addr h) :
    ∃ js ys, h = chain [buildMap js, buildMap ys, mainPathsToUrls] defaultMux.toHandler := by
  unfold main at hm
  simp only [] at hm
  split at hm
  · cases hm
  · split at hm
    · cases hm
    · rename_i yh hy
      split at hm
      · cases hm
      · split at hm
        · cases hm
        · rename_i jh hj
          injection hm with _ _ hh
          subst hh
          unfold YAMLHandler at hy
          unfold JSONHandler at hj
          split at hy
          · cases hy
          · split at hj
            · cases hj
            · injection hy with hy
              injection hj with hj
              subst hy; subst hj
              exact ⟨_, _, rfl⟩

/-- C3, as stated, fails: `/a` is a key of both tables, the outer one maps
it to `""`, and the nested handler redirects to the url of the inner table,
not to the one of the outer table. -/
theorem layering_outer_empty_url_loses :
    (⟨[("/a", "")]⟩ : GoMap).lookup (getRequest "/a").URL.Path = some ""
    ∧ (⟨[("/a", "https://example.com")]⟩ : GoMap).lookup (getRequest "/a").URL.Path
        = some "https://example.com"
    ∧ (MapHandler ⟨[("/a", "")]⟩
          (MapHandler ⟨[("/a", "https://example.com")]⟩ NotFoundHandler)).ServeHTTP
        .fresh (getRequest "/a")
        = ⟨some 303, some "https://example.com", ""⟩
    ∧ ((MapHandler ⟨[("/a", "")]⟩
          (MapHandler ⟨[("/a", "https://example.com")]⟩ NotFoundHandler)).ServeHTTP
        .fresh (getRequest "/a")).redirect ≠ some "" := by
  decide

/-- C3 (amended): when the request path is a key of both tables and the outer
table maps it to a non-empty url `Ui`, the nested handler answers by
`http.Redirect` with url `Ui` and status 303: the url of the outer table,
whatever the inner table holds. -/
theorem layering_outer_wins (ti tj : GoMap) (d : Handler) (w : ResponseWriter) (r : Request)
    (Ui Uj : String)
    (hi : ti.lookup r.URL.Path = some Ui) (_hj : tj.lookup r.URL.Path = some Uj)
    (hne : Ui ≠ "") :
    (MapHandler ti (MapHandler tj d)).ServeHTTP w r = Redirect w r Ui StatusSeeOther
    ∧ (w.status = none →
        ((MapHandler ti (MapHandler tj d)).ServeHTTP w r).status = some 303
        ∧ ((MapHandler ti (MapHandler tj d)).ServeHTTP w r).redirect = some Ui
        ∧ (Ui ≠ Uj → ((MapHandler ti (MapHandler tj d)).ServeHTTP w r).redirect ≠ some Uj)) := by
  have h1 := MapHandler_key_nonempty ti (MapHandler tj d) w r Ui hi hne
  refine ⟨h1, fun hw => ?_⟩
  rw [h1, Redirect_fresh w r Ui _ hw]
  refine ⟨rfl, rfl, fun hd hh => hd ?_⟩
  exact Option.some.inj hh

/-- C3 (amended), at two tables that both hold `/a`. -/
theorem layering_outer_wins_witness :
    (MapHandler ⟨[("/a", "https://outer.example")]⟩
        (MapHandler ⟨[("/a", "https://inner.example")]⟩ NotFoundHandler)).ServeHTTP
      .fresh (getRequest "/a")
      = Redirect .fresh (getRequest "/a") "https://outer.example" StatusSeeOther :=
  (layering_outer_wins ⟨[("/a", "https://outer.example")]⟩
    ⟨[("/a", "https://inner.example")]⟩ NotFoundHandler .fresh (getRequest "/a")
    "https://outer.example" "https://inner.example" (by decide) (by decide) (by decide)).1

/-- C4: when the request path is a key of none of the tables of a chain, the
answer of the chain is the answer of the terminal handler alone; and the
handler `main` serves is such a chain, of the JSON table over the YAML table
over the in-memory table over the default router. -/
theorem chain_all_miss_is_default (tables : List GoMap) (d : Handler) (w : ResponseWriter)
    (r : Request) (hmiss : ∀ t ∈ tables, t.lookup r.URL.Path = none) :
    (chain tables d).ServeHTTP w r = d.ServeHTTP w r
    ∧ (∀ (env : Env) (out : List String) (addr : String) (h : Handler),
        main env = .listening out addr h →
        ∃ js ys, h = chain [buildMap js, buildMap ys, mainPathsToUrls] defaultMux.toHandler) :=
  ⟨chain_all_miss tables d w r (fun t ht => index_of_lookup_none (hmiss t ht)),
   main_listening_chain⟩

/-- C4, at the in-memory table of `main` under an empty table and a request
for `/unknown`. -/
theorem chain_all_miss_is_default_witness :
    (chain [GoMap.empty, mainPathsToUrls] defaultMux.toHandler).ServeHTTP .fresh
        (getRequest "/unknown")
      = defaultMux.toHandler.ServeHTTP .fresh (getRequest "/unknown") :=
  (chain_all_miss_is_default [GoMap.empty, mainPathsToUrls] defaultMux.toHandler .fresh
    (getRequest "/unknown") (by decide)).1

/-- C10: the nested chain answers every request as the first-match
dispatcher over the list of layers does; with no layer, or with only empty
tables, the chain is the terminal handler itself; and a request costs at
most one lookup per layer. -/
theorem chain_refines_dispatch (tables : List GoMap) (d : Handler) :
    chain tables d = dispatch tables d
    ∧ chain [] d = d
    ∧ ((∀ t ∈ tables, t.entries = []) → chain tables d = d)
    ∧ (∀ r : Request, chainLookups tables r ≤ tables.length) := by
  refine ⟨Handler_ext _ _ (chain_eq_dispatch tables d), rfl, fun h => ?_,
    chainLookups_le tables⟩
  apply Handler_ext
  intro w r
  apply chain_all_miss
  intro t ht
  have := h t ht
  simp [GoMap.index, GoMap.lookup, this]

/-- C10, at the chain of two empty tables. -/
theorem chain_refines_dispatch_witness :
    chain [GoMap.empty, GoMap.empty] NotFoundHandler = NotFoundHandler :=
  (chain_refines_dispatch [GoMap.empty, GoMap.empty] NotFoundHandler).2.2.1 (by decide)

/-! ## The default router -/

theorem cleanPath_rooted (p : String) : (cleanPath p).data.head? = some '/' := by
  unfold cleanPath
  split
  · rfl
  · simp only []
    split <;> split <;> rfl

theorem defaultMux_shouldRedirect (p : String) : defaultMux.shouldRedirect p = false := by
  have hm : defaultMux.m = [("/", ⟨hello⟩)] := rfl
  unfold ServeMux.shouldRedirect ServeMux.registered
  rw [hm]
  by_cases h1 : p = "/"
  · subst h1; rfl
  · by_cases h2 : p.data = []
    · simp [h2]
    · have h3 : ¬ ("/" = p ++ "/") := by
        intro h
        have hl := congrArg String.length h
        have h1 : ("/" : String).length = 1 := rfl
        rw [String.length_append, h1] at hl
        have hz : p.length = 0 := by omega
        cases p with
        | mk d =>
          have hd : d = [] := by simpa [String.length] using hz
          exact h2 hd
      simp [h3]

theorem defaultMux_handler (p : String) (h : p.data.head? = some '/') :
    defaultMux.handler p = ⟨hello⟩ := by
  have hm : defaultMux.m = [("/", ⟨hello⟩)] := rfl
  unfold ServeMux.handler ServeMux.matchPath
  rw [hm]
  by_cases h1 : "/" = p
  · subst h1; rfl
  · have hp : ("/" : String).data.isPrefixOf p.data = true := by
      cases hd : p.data with
      | nil => simp [hd] at h
      | cons c cs =>
        simp [hd] at h
        subst h
        show List.isPrefixOf ['/'] ('/' :: cs) = true
        simp [List.isPrefixOf]
    have hl : ("/" : String).data.getLast? = some '/' := rfl
    have hb : ("/" == p) = false := by simpa using h1
    simp [List.find?, hb, List.filter, hp, hl, longer]

theorem defaultMux_hello (w : ResponseWriter) (r : Request)
    (huri : r.RequestURI ≠ "*") (hcanon : cleanPath r.URL.Path = r.URL.Path) :
    defaultMux.toHandler.ServeHTTP w r = hello w r := by
  have hroot : r.URL.Path.data.head? = some '/' := by
    rw [← hcanon]; exact cleanPath_rooted _
  have hh := defaultMux_handler r.URL.Path hroot
  simp only [ServeMux.toHandler, ServeMux.ServeHTTP, ServeMux.findHandler]
  simp [huri, defaultMux_shouldRedirect, hcanon, hh]

theorem hello_fresh (w : ResponseWriter) (r : Request) (hw : w.status = none) :
    hello w r = ⟨some 200, w.redirect, w.body ++ "Hello, world!\n"⟩ := by
  cases w with
  | mk s l b =>
    simp only at hw
    subst hw
    rfl

/-- C5, as stated, fails: the default router answers a request for
`/unknown` with status 200 and the greeting, not with 404, because the
pattern `/` names the whole tree of paths. -/
theorem defaultMux_unknown_is_hello :
    defaultMux.toHandler.ServeHTTP .fresh (getRequest "/unknown")
      = ⟨some 200, none, "Hello, world!\n"⟩
    ∧ (defaultMux.toHandler.ServeHTTP .fresh (getRequest "/unknown")).status
        ≠ some StatusNotFound := by
  decide

/-- C5 (amended): the default router answers a request for `/` with status
200 and body `Hello, world!\n`, and answers every request with a canonical
path (such as `/unknown`) in the same way: it runs `hello`, and no such path
gets a 404. -/
theorem defaultMux_serves_hello (w : ResponseWriter) (r : Request)
    (huri : r.RequestURI ≠ "*") (hcanon : cleanPath r.URL.Path = r.URL.Path) :
    defaultMux.toHandler.ServeHTTP w r = hello w r
    ∧ (w.status = none →
        (defaultMux.toHandler.ServeHTTP w r).status = some 200
        ∧ (defaultMux.toHandler.ServeHTTP w r).body = w.body ++ "Hello, world!\n")
    ∧ defaultMux.toHandler.ServeHTTP .fresh (getRequest "/")
        = ⟨some 200, none, "Hello, world!\n"⟩ := by
  have h1 := defaultMux_hello w r huri hcanon
  refine ⟨h1, fun hw => ?_, by decide⟩
  rw [h1, hello_fresh w r hw]
  exact ⟨rfl, rfl⟩

/-- C5 (amended), at a request for `/some/page`. -/
theorem defaultMux_serves_hello_witness :
    (getRequest "/some/page").RequestURI ≠ "*"
    ∧ cleanPath (getRequest "/some/page").URL.Path = (getRequest "/some/page").URL.Path
    ∧ defaultMux.toHandler.ServeHTTP .fresh (getRequest "/some/page")
        = hello .fresh (getRequest "/some/page") :=
  ⟨by decide, by decide,
   (defaultMux_serves_hello .fresh (getRequest "/some/page") (by decide) (by decide)).1⟩

/-! ## The map builder -/

theorem lookup_filter_ne (l : List (String × String)) (k p : String) (h : k ≠ p) :
    List.lookup p (l.filter (fun e => e.1 != k)) = List.lookup p l := by
  induction l with
  | nil => rfl
  | cons e l ih =>
    obtain ⟨a, b⟩ := e
    by_cases hak : a = k
    · subst hak
      have hpa : (p == a) = false := by simpa using fun hh => h hh.symm
      simp [List.filter, List.lookup, hpa, ih]
    · have : (a != k) = true := by simpa using hak
      simp only [List.filter, this, List.lookup]
      cases hpa : (p == a) with
      | true => rfl
      | false => simpa using ih

theorem lookup_assign (m : GoMap) (k v p : String) :
    (m.assign k v).lookup p = if k = p then some v else m.lookup p := by
  unfold GoMap.assign GoMap.lookup
  by_cases h : k = p
  · subst h; simp [List.lookup]
  · have hpk : (p == k) = false := by simpa using fun hh => h hh.symm
    simp only [List.lookup, hpk, h, if_false]
    exact lookup_filter_ne m.entries k p h

theorem lastUrl_cons (e : pathsToUrls) (es : List pathsToUrls) (p : String) :
    lastUrl (e :: es) p
      = match lastUrl es p with
        | some u => some u
        | none => if e.Path = p then some e.Url else none := by
  unfold lastUrl
  by_cases h : e.Path = p
  · simp only [List.filter, h, decide_True]
    cases hf : es.filter (fun e => decide (e.Path = p)) with
    | nil => simp
    | cons a l =>
      have hl : (a :: l).getLast? = some ((a :: l).getLast (by simp)) :=
        List.getLast?_eq_getLast _ _
      simp [List.getLast?_cons_cons, hl]
  · simp only [List.filter, h, decide_False, if_false]
    cases ((es.filter (fun e => decide (e.Path = p))).getLast?) <;> rfl

theorem lookup_foldl_assign (es : List pathsToUrls) (m : GoMap) (p : String) :
    (es.foldl (fun m v => m.assign v.Path v.Url) m).lookup p
      = match lastUrl es p with
        | some u => some u
        | none => m.lookup p := by
  induction es generalizing m with
  | nil => rfl
  | cons e es ih =>
    rw [List.foldl_cons, ih, lastUrl_cons, lookup_assign]
    cases lastUrl es p <;> simp
    split <;> rfl

theorem buildMap_lookup (entries : List pathsToUrls) (p : String) :
    (buildMap entries).lookup p = lastUrl entries p := by
  unfold buildMap
  rw [lookup_foldl_assign]
  cases lastUrl entries p <;> rfl

theorem lastUrl_split (front back : List pathsToUrls) (e : pathsToUrls)
    (hback : ∀ x ∈ back, x.Path ≠ e.Path) :
    lastUrl (front ++ e :: back) e.Path = some e.Url := by
  have hb : back.filter (fun x => decide (x.Path = e.Path)) = [] := by
    rw [List.filter_eq_nil_iff]
    intro x hx
    simpa using hback x hx
  unfold lastUrl
  rw [List.filter_append, List.filter_cons_of_pos (by simp), hb]
  simp

/-- C6: looking `p` up in `buildMap entries` yields the url of the last entry
of the sequence whose path is `p`: whenever the sequence splits into a front,
an entry with path `p` and a back without the path `p`, the lookup yields
the url of that entry; `p` is absent when no entry has the path `p`; and
`[{p,u1},{p,u2}]` yields `u2`. `buildMap` is total. -/
theorem buildMap_last_write_wins (entries : List pathsToUrls) (p : String) :
    (buildMap entries).lookup p = lastUrl entries p
    ∧ (∀ (front back : List pathsToUrls) (e : pathsToUrls),
        entries = front ++ e :: back → e.Path = p → (∀ x ∈ back, x.Path ≠ p) →
        (buildMap entries).lookup p = some e.Url)
    ∧ ((∀ e ∈ entries, e.Path ≠ p) → (buildMap entries).lookup p = none)
    ∧ (∀ u1 u2 : String, (buildMap [⟨p, u1⟩, ⟨p, u2⟩]).lookup p = some u2) := by
  refine ⟨buildMap_lookup entries p, ?_, ?_, ?_⟩
  · intro front back e hsplit hp hback
    subst hp
    rw [buildMap_lookup, hsplit]
    exact lastUrl_split front back e hback
  · intro h
    rw [buildMap_lookup]
    have hf : entries.filter (fun e => decide (e.Path = p)) = [] := by
      rw [List.filter_eq_nil_iff]
      intro x hx
      simpa using h x hx
    simp [lastUrl, hf]
  · intro u1 u2
    rw [buildMap_lookup]
    simp [lastUrl]

/-- C6, at a sequence that names `/p` twice. -/
theorem buildMap_last_write_wins_witness :
    (buildMap [⟨"/p", "u1"⟩, ⟨"/q", "v"⟩, ⟨"/p", "u2"⟩]).lookup "/p" = some "u2" :=
  (buildMap_last_write_wins [⟨"/p", "u1"⟩, ⟨"/q", "v"⟩, ⟨"/p", "u2"⟩] "/p").2.1
    [⟨"/p", "u1"⟩, ⟨"/q", "v"⟩] [] ⟨"/p", "u2"⟩ rfl rfl (by simp)

/-! ## The structured-source handlers and start-up -/

theorem parseYAML_error_iff (U : Unmarshal) (yml : Bytes) (e : GoError) :
    parseYAML U yml = .error e ↔ (U yml []).2 = some e := by
  rcases h : U yml [] with ⟨p, _ | err⟩ <;> simp [parseYAML, h]

theorem parseJSON_error_iff (U : Unmarshal) (jsn : Bytes) (e : GoError) :
    parseJSON U jsn = .error e ↔ (U jsn []).2 = some e := by
  rcases h : U jsn [] with ⟨p, _ | err⟩ <;> simp [parseJSON, h]

theorem parseYAML_ok_iff (U : Unmarshal) (yml : Bytes) (es : List pathsToUrls) :
    parseYAML U yml = .ok es ↔ U yml [] = (es, none) := by
  rcases h : U yml [] with ⟨p, _ | err⟩ <;> simp [parseYAML, h]

theorem parseJSON_ok_iff (U : Unmarshal) (jsn : Bytes) (es : List pathsToUrls) :
    parseJSON U jsn = .ok es ↔ U jsn [] = (es, none) := by
  rcases h : U jsn [] with ⟨p, _ | err⟩ <;> simp [parseJSON, h]

theorem YAMLHandler_error (U : Unmarshal) (yml : Bytes) (fb : Handler) (e : GoError)
    (h : parseYAML U yml = .error e) : YAMLHandler U yml fb = .error e := by
  simp [YAMLHandler, h]

theorem YAMLHandler_ok (U : Unmarshal) (yml : Bytes) (fb : Handler) (es : List pathsToUrls)
    (h : parseYAML U yml = .ok es) :
    YAMLHandler U yml fb = .ok (MapHandler (buildMap es) fb) := by
  simp [YAMLHandler, h]

theorem JSONHandler_error (U : Unmarshal) (jsn : Bytes) (fb : Handler) (e : GoError)
    (h : parseJSON U jsn = .error e) : JSONHandler U jsn fb = .error e := by
  simp [JSONHandler, h]

theorem JSONHandler_ok (U : Unmarshal) (jsn : Bytes) (fb : Handler) (es : List pathsToUrls)
    (h : parseJSON U jsn = .ok es) :
    JSONHandler U jsn fb = .ok (MapHandler (buildMap es) fb) := by
  simp [JSONHandler, h]

theorem YAMLHandler_error_iff (U : Unmarshal) (yml : Bytes) (fb : Handler) :
    (∃ e, YAMLHandler U yml fb = .error e) ↔ ∃ e, parseYAML U yml = .error e := by
  unfold YAMLHandler
  cases parseYAML U yml <;> simp

theorem JSONHandler_error_iff (U : Unmarshal) (jsn : Bytes) (fb : Handler) :
    (∃ e, JSONHandler U jsn fb = .error e) ↔ ∃ e, parseJSON U jsn = .error e := by
  unfold JSONHandler
  cases parseJSON U jsn <;> simp

theorem main_panics_yaml (env : Env) (yml : Bytes) (e : GoError)
    (hy : configuredYAML env = .ok yml) (hp : parseYAML env.yamlUnmarshal yml = .error e) :
    main env = .panicked [] e := by
  unfold configuredYAML at hy
  have := YAMLHandler_error env.yamlUnmarshal yml
    (MapHandler mainPathsToUrls defaultMux.toHandler) e hp
  simp only [main, hy, this]

theorem main_panics_json (env : Env) (jsn : Bytes) (e : GoError)
    (hj : configuredJSON env = .ok jsn) (hp : parseJSON env.jsonUnmarshal jsn = .error e) :
    ∃ out err, main env = .panicked out err := by
  unfold configuredJSON at hj
  unfold main
  simp only []
  split
  · exact ⟨_, _, rfl⟩
  · split
    · exact ⟨_, _, rfl⟩
    · rw [hj]
      simp only []
      rw [JSONHandler_error _ _ _ _ hp]
      exact ⟨_, _, rfl⟩

/-- C7: with the decoder as a black box, `YAMLHandler` and `JSONHandler`
return an error exactly when the decoder reports one on the payload; the
error returned is the one of the decoder and no handler comes with it,
whatever the decoder left in the slice; when the decoder succeeds with the
entries `es` the result is, without an error, the handler
`MapHandler (buildMap es) fallback`. The same holds one level up, with
`parseYAML` and `parseJSON` as the parser, whose result is the one of the
decoder. -/
theorem structured_handlers_all_or_nothing (U : Unmarshal) (payload : Bytes)
    (fallback : Handler) :
    (∀ e, (U payload []).2 = some e → YAMLHandler U payload fallback = .error e)
    ∧ (∀ es, U payload [] = (es, none) →
        YAMLHandler U payload fallback = .ok (MapHandler (buildMap es) fallback))
    ∧ ((∃ e, YAMLHandler U payload fallback = .error e) ↔ ∃ e, (U payload []).2 = some e)
    ∧ (∀ e, (U payload []).2 = some e → JSONHandler U payload fallback = .error e)
    ∧ (∀ es, U payload [] = (es, none) →
        JSONHandler U payload fallback = .ok (MapHandler (buildMap es) fallback))
    ∧ ((∃ e, JSONHandler U payload fallback = .error e) ↔ ∃ e, (U payload []).2 = some e)
    ∧ (∀ e, parseYAML U payload = .error e → YAMLHandler U payload fallback = .error e)
    ∧ (∀ es, parseYAML U payload = .ok es →
        YAMLHandler U payload fallback = .ok (MapHandler (buildMap es) fallback))
    ∧ ((∃ e, YAMLHandler U payload fallback = .error e)
        ↔ ∃ e, parseYAML U payload = .error e)
    ∧ (∀ e, parseYAML U payload = .error e ↔ (U payload []).2 = some e)
    ∧ (∀ es, parseYAML U payload = .ok es ↔ U payload [] = (es, none))
    ∧ (∀ e, parseJSON U payload = .error e → JSONHandler U payload fallback = .error e)
    ∧ (∀ es, parseJSON U payload = .ok es →
        JSONHandler U payload fallback = .ok (MapHandler (buildMap es) fallback))
    ∧ ((∃ e, JSONHandler U payload fallback = .error e)
        ↔ ∃ e, parseJSON U payload = .error e)
    ∧ (∀ e, parseJSON U payload = .error e ↔ (U payload []).2 = some e)
    ∧ (∀ es, parseJSON U payload = .ok es ↔ U payload [] = (es, none)) := by
  have hy : (∃ e, YAMLHandler U payload fallback = .error e)
      ↔ ∃ e, (U payload []).2 = some e := by
    rw [YAMLHandler_error_iff]
    exact exists_congr (parseYAML_error_iff U payload)
  have hj : (∃ e, JSONHandler U payload fallback = .error e)
      ↔ ∃ e, (U payload []).2 = some e := by
    rw [JSONHandler_error_iff]
    exact exists_congr (parseJSON_error_iff U payload)
  exact
    ⟨fun e h => YAMLHandler_error U payload fallback e ((parseYAML_error_iff U payload e).2 h),
     fun es h => YAMLHandler_ok U payload fallback es ((parseYAML_ok_iff U payload es).2 h),
     hy,
     fun e h => JSONHandler_error U payload fallback e ((parseJSON_error_iff U payload e).2 h),
     fun es h => JSONHandler_ok U payload fallback es ((parseJSON_ok_iff U payload es).2 h),
     hj,
     YAMLHandler_error U payload fallback, YAMLHandler_ok U payload fallback,
     YAMLHandler_error_iff U payload fallback, parseYAML_error_iff U payload,
     parseYAML_ok_iff U payload,
     JSONHandler_error U payload fallback, JSONHandler_ok U payload fallback,
     JSONHandler_error_iff U payload fallback, parseJSON_error_iff U payload,
     parseJSON_ok_iff U payload⟩

/-- C7, at a decoder that reports an unterminated array after filling part
of the slice, and at a decoder that succeeds with two entries for the same
path. -/
theorem structured_handlers_all_or_nothing_witness :
    JSONHandler (fun _ _ => ([⟨"/a", "u"⟩], some "unexpected end of JSON input")) []
        NotFoundHandler
      = .error "unexpected end of JSON input"
    ∧ YAMLHandler (fun _ _ => ([⟨"/a", "u1"⟩, ⟨"/a", "u2"⟩], none)) [] NotFoundHandler
      = .ok (MapHandler (buildMap [⟨"/a", "u1"⟩, ⟨"/a", "u2"⟩]) NotFoundHandler) :=
  ⟨(structured_handlers_all_or_nothing
      (fun _ _ => ([⟨"/a", "u"⟩], some "unexpected end of JSON input")) []
      NotFoundHandler).2.2.2.1 "unexpected end of JSON input" rfl,
   (structured_handlers_all_or_nothing
      (fun _ _ => ([⟨"/a", "u1"⟩, ⟨"/a", "u2"⟩], none)) []
      NotFoundHandler).2.1 [⟨"/a", "u1"⟩, ⟨"/a", "u2"⟩] rfl⟩

/-- C8: when the parse of the configured YAML payload or of the configured
JSON payload fails, `main` ends in a panic and never reaches
`http.ListenAndServe`: no handler is served. When it is the YAML parse that
fails, the panic carries the error of that parse. -/
theorem main_panics_on_parse_failure (env : Env)
    (hfail : (∃ yml e, configuredYAML env = .ok yml
                ∧ parseYAML env.yamlUnmarshal yml = .error e)
           ∨ (∃ jsn e, configuredJSON env = .ok jsn
                ∧ parseJSON env.jsonUnmarshal jsn = .error e)) :
    (∃ out err, main env = .panicked out err)
    ∧ (∀ out addr h, main env ≠ .listening out addr h)
    ∧ (∀ yml e, configuredYAML env = .ok yml →
        parseYAML env.yamlUnmarshal yml = .error e → main env = .panicked [] e) := by
  have hp : ∃ out err, main env = .panicked out err := by
    rcases hfail with ⟨yml, e, hy, hp⟩ | ⟨jsn, e, hj, hp⟩
    · exact ⟨_, _, main_panics_yaml env yml e hy hp⟩
    · exact main_panics_json env jsn e hj hp
  refine ⟨hp, ?_, fun yml e hy hq => main_panics_yaml env yml e hy hq⟩
  obtain ⟨out, err, h⟩ := hp
  intro o a k hk
  rw [h] at hk
  cases hk

/-- C8, at an environment without flags whose JSON decoder reports an
unterminated array. -/
theorem main_panics_on_parse_failure_witness :
    configuredJSON brokenJSONEnv = .ok (bytesOf jsonString)
    ∧ parseJSON brokenJSONEnv.jsonUnmarshal (bytesOf jsonString)
        = .error "unexpected end of JSON input"
    ∧ ∃ out err, main brokenJSONEnv = .panicked out err :=
  ⟨rfl, rfl,
   (main_panics_on_parse_failure brokenJSONEnv
      (Or.inr ⟨bytesOf jsonString, "unexpected end of JSON input", rfl, rfl⟩)).1⟩

end UrlShort
